import Mathlib

/-
Verification of the sync engine of the bi-agent-dashboard repository
(scripts/hubspot.py, scripts/sync_posthog.py, scripts/sync_athena.py).

The Python code is shallowly embedded: JSON scalars become `JVal`,
Python dicts become association lists with unique keys and Python
`dict.update` semantics, the DuckDB cache plus the data directory become
an explicit `Store` record threaded through the loaders, and HTTP /
Athena interactions are modelled against a mock service given as the
finite list of responses the service would produce.
-/

/-- A JSON scalar value, as produced by `json.dump` / `response.json()`.
Nested collections are not needed by any claim, so values are scalars. -/
inductive JVal where
  | s (v : String)
  | b (v : Bool)
  | n (v : Int)
  | null
  deriving DecidableEq, Repr

/-- A flat row: a single-level Python dict, keys in insertion order. -/
abbrev Row : Type := List (String × JVal)

/-- Python `d[k]` / `d.get(k)`: first binding of `k` in the list. -/
def getEntry {α : Type} : List (String × α) → String → Option α
  | [], _ => none
  | (k, v) :: rest, k0 => if k = k0 then some v else getEntry rest k0

/-- Python `d[k] = v`: replace the value at `k` in place if the key is
present (its position is kept), otherwise append the new binding. -/
def setEntry {α : Type} : List (String × α) → String → α → List (String × α)
  | [], k0, v0 => [(k0, v0)]
  | (k, v) :: rest, k0, v0 =>
      if k = k0 then (k, v0) :: rest else (k, v) :: setEntry rest k0 v0

/-- Removal of a key, as done by `DROP TABLE IF EXISTS` on the table map. -/
def delEntry {α : Type} : List (String × α) → String → List (String × α)
  | [], _ => []
  | (k, v) :: rest, k0 =>
      if k = k0 then delEntry rest k0 else (k, v) :: delEntry rest k0

/-- The key list of a dict. -/
def keysOf {α : Type} (d : List (String × α)) : List String :=
  d.map Prod.fst

/-- Python `d.update(u)`: fold the bindings of `u` over `d` left to right. -/
def dictUpdate {α : Type} (d u : List (String × α)) : List (String × α) :=
  u.foldl (fun acc kv => setEntry acc kv.1 kv.2) d

theorem getEntry_setEntry_self {α : Type} (d : List (String × α)) (k : String) (v : α) :
    getEntry (setEntry d k v) k = some v := by
  induction d with
  | nil => simp [setEntry, getEntry]
  | cons hd tl ih =>
    obtain ⟨k1, v1⟩ := hd
    by_cases h : k1 = k
    · simp [setEntry, getEntry, h]
    · simp [setEntry, getEntry, h, ih]

theorem getEntry_setEntry_ne {α : Type} (d : List (String × α)) (k k0 : String) (v : α)
    (h : k ≠ k0) : getEntry (setEntry d k v) k0 = getEntry d k0 := by
  induction d with
  | nil => simp [setEntry, getEntry, h]
  | cons hd tl ih =>
    obtain ⟨k1, v1⟩ := hd
    by_cases h1 : k1 = k
    · subst h1
      simp [setEntry, getEntry, h]
    · by_cases h2 : k1 = k0
      · simp [setEntry, getEntry, h1, h2, Ne.symm h]
      · simp [setEntry, getEntry, h1, h2, ih]

theorem mem_keysOf_setEntry {α : Type} (d : List (String × α)) (k k0 : String) (v : α) :
    k ∈ keysOf (setEntry d k0 v) ↔ k ∈ keysOf d ∨ k = k0 := by
  induction d with
  | nil => simp [setEntry, keysOf]
  | cons hd tl ih =>
    obtain ⟨k1, v1⟩ := hd
    by_cases h : k1 = k0
    · subst h
      simp [setEntry, keysOf]
      tauto
    · simp [setEntry, keysOf, h] at ih ⊢
      tauto

theorem mem_keysOf_dictUpdate {α : Type} (u d : List (String × α)) (k : String) :
    k ∈ keysOf (dictUpdate d u) ↔ k ∈ keysOf d ∨ k ∈ keysOf u := by
  induction u generalizing d with
  | nil => simp [dictUpdate, keysOf]
  | cons hd tl ih =>
    obtain ⟨k1, v1⟩ := hd
    show k ∈ keysOf (dictUpdate (setEntry d k1 v1) tl) ↔ _
    rw [ih]
    rw [mem_keysOf_setEntry]
    simp [keysOf]
    tauto

theorem getEntry_dictUpdate_of_not_mem {α : Type} (u d : List (String × α)) (k : String)
    (h : k ∉ keysOf u) : getEntry (dictUpdate d u) k = getEntry d k := by
  induction u generalizing d with
  | nil => simp [dictUpdate]
  | cons hd tl ih =>
    obtain ⟨k1, v1⟩ := hd
    simp [keysOf] at h
    show getEntry (dictUpdate (setEntry d k1 v1) tl) k = _
    rw [ih _ (by simp [keysOf]; tauto)]
    exact getEntry_setEntry_ne _ _ _ _ (fun hk => h.1 hk.symm)

theorem getEntry_dictUpdate_of_mem {α : Type} (u d : List (String × α)) (k : String) (v : α)
    (hnd : (keysOf u).Nodup) (h : getEntry u k = some v) :
    getEntry (dictUpdate d u) k = some v := by
  induction u generalizing d with
  | nil => simp [getEntry] at h
  | cons hd tl ih =>
    obtain ⟨k1, v1⟩ := hd
    simp [keysOf] at hnd
    by_cases hk : k1 = k
    · subst hk
      simp [getEntry] at h
      subst h
      have hu : dictUpdate d ((k1, v1) :: tl) = dictUpdate (setEntry d k1 v1) tl := rfl
      rw [hu, getEntry_dictUpdate_of_not_mem _ _ _ (by simpa [keysOf] using hnd.1)]
      exact getEntry_setEntry_self _ _ _
    · simp [getEntry, hk] at h
      exact ih _ hnd.2 h

/-
Record flattener, from scripts/hubspot.py, flatten_hubspot_object.
A HubSpot remote object is a dict that may carry the keys id, createdAt,
updatedAt, archived and properties; each field below is `none` when the
corresponding key is absent from the dict.
-/

/-- A remote CRM object as delivered by the API (hubspot.py). `obj["id"]`
raises KeyError when `id = none`; the other accesses use `dict.get`. -/
structure RemoteObject where
  id : Option JVal
  createdAt : Option JVal
  updatedAt : Option JVal
  archived : Option JVal
  properties : Option (List (String × JVal))
  deriving DecidableEq, Repr

/-- scripts/hubspot.py, flatten_hubspot_object: builds the dict
with the four reserved metadata keys, then `flat.update(obj.get("properties", {}))`.
Returns `none` exactly when `obj["id"]` raises (key absent). -/
def flatten_hubspot_object (obj : RemoteObject) : Option Row :=
  match obj.id with
  | none => none
  | some idv =>
      let flat : List (String × JVal) :=
        [("id", idv),
         ("created_at", obj.createdAt.getD JVal.null),
         ("updated_at", obj.updatedAt.getD JVal.null),
         ("archived", obj.archived.getD (JVal.b false))]
      some (dictUpdate flat (obj.properties.getD []))

/-
Cache loaders. The local state visible to the loaders is the data
directory (intermediate serialized files) and the DuckDB database
(a map from table name to stored rows); DuckDB's homogenization of
heterogeneous rows into a superset schema is abstracted away, the
table keeps the rows read from the file.
-/

/-- Local filesystem-plus-database state threaded through the loaders. -/
structure Store where
  files : List (String × List Row)
  tables : List (String × List Row)
  deriving DecidableEq, Repr

/-- `open(json_path, "w"); json.dump(rows, f)`. -/
def writeFile (st : Store) (path : String) (rows : List Row) : Store :=
  { st with files := setEntry st.files path rows }

/-- `DROP TABLE IF EXISTS t`. -/
def dropTable (st : Store) (table : String) : Store :=
  { st with tables := delEntry st.tables table }

/-- `json_path.unlink()`. -/
def unlinkFile (st : Store) (path : String) : Store :=
  { st with files := delEntry st.files path }

/-- DuckDB `read_json_auto(path)`: fails when the file is missing, and
fails on an empty JSON array (no rows to infer a schema from). -/
def read_json_auto (st : Store) (path : String) : Except String (List Row) :=
  match getEntry st.files path with
  | none => .error "no such file"
  | some [] => .error "could not infer schema from empty JSON"
  | some rows => .ok rows

/-- DuckDB `read_csv_auto(path)`: fails when the file is missing. Athena
result CSVs always carry a header line, so an empty result set still
yields a readable (zero-row) table. -/
def read_csv_auto (st : Store) (path : String) : Except String (List Row) :=
  match getEntry st.files path with
  | none => .error "no such file"
  | some rows => .ok rows

/-- The list comprehension `[flatten_hubspot_object(obj) for obj in data]`:
`none` when some object raises KeyError on its missing id. -/
def flattenAll : List RemoteObject → Option (List Row)
  | [] => some []
  | o :: os =>
      match flatten_hubspot_object o with
      | none => none
      | some r => (flattenAll os).map (r :: ·)

/-- scripts/hubspot.py, save_to_duckdb. Guard: empty `data` returns at
once (logs "No data to save"). Otherwise: flatten every object (a missing
id raises KeyError before any file is written), dump the flat rows to
`table.json`, DROP the existing table, CREATE it from the file, COUNT it,
then unlink the JSON file. The final state is returned alongside the
normal-or-exceptional outcome, since DuckDB statements auto-commit. -/
def Hubspot.save_to_duckdb (st : Store) (data : List RemoteObject) (table : String) :
    Store × Except String Unit :=
  if data.isEmpty then (st, .ok ())
  else
    match flattenAll data with
    | none => (st, .error "KeyError: id")
    | some flat =>
        let path := table ++ ".json"
        let st1 := writeFile st path flat
        let st2 := dropTable st1 table
        match read_json_auto st2 path with
        | .error e => (st2, .error e)
        | .ok rows =>
            let st3 := { st2 with tables := setEntry st2.tables table rows }
            (unlinkFile st3 path, .ok ())

/-- scripts/sync_posthog.py, save_to_duckdb. Same drop-create-count-unlink
sequence as the CRM loader, but with no flattening step and, notably,
no empty-batch guard: the DROP is executed unconditionally before the
CREATE is attempted. -/
def Posthog.save_to_duckdb (st : Store) (data : List Row) (table : String) :
    Store × Except String Unit :=
  let path := table ++ ".json"
  let st1 := writeFile st path data
  let st2 := dropTable st1 table
  match read_json_auto st2 path with
  | .error e => (st2, .error e)
  | .ok rows =>
      let st3 := { st2 with tables := setEntry st2.tables table rows }
      (unlinkFile st3 path, .ok ())

/-- scripts/sync_athena.py, sync_to_duckdb: for each (table, csv path)
pair, DROP the existing table and CREATE it from the CSV file, then
COUNT it. No file is ever deleted by this loader. -/
def Athena.sync_to_duckdb (st : Store) (csv_files : List (String × String)) :
    Store × Except String Unit :=
  match csv_files with
  | [] => (st, .ok ())
  | (table, path) :: rest =>
      let st1 := dropTable st table
      match read_csv_auto st1 path with
      | .error e => (st1, .error e)
      | .ok rows =>
          let st2 := { st1 with tables := setEntry st1.tables table rows }
          Athena.sync_to_duckdb st2 rest

/-
Authenticated request clients. A mock server is the finite list of
responses it will produce, one per issued request; the client functions
return the number of requests issued, the total seconds slept, and the
outcome handed to the caller.
-/

/-- One HTTP response from the mock server. `body = none` models an empty
response text; `body = some p` models a body whose JSON parses to `p`. -/
structure HttpResponse (α : Type) where
  status : Nat
  retryAfter : Option Nat
  body : Option α
  deriving DecidableEq, Repr

/-- An error surfaced to the caller of a request helper. -/
inductive ReqError where
  | httpError (status : Nat)
  | jsonDecodeError
  | noResponse
  deriving DecidableEq, Repr

/-- `requests` `Response.raise_for_status()`: raises HTTPError exactly for
status codes in 400..599. -/
def raise_for_status (status : Nat) : Except ReqError Unit :=
  if 400 ≤ status ∧ status < 600 then .error (.httpError status) else .ok ()

/-- Shared shape of both request helpers: on 429, read Retry-After with
the given default, sleep, and re-issue the identical request (consuming
the next mock response); otherwise raise_for_status, then parse the body.
Returns (requests issued, seconds slept, outcome). -/
def runRequest {α : Type} (defaultRetryAfter : Nat)
    (parseBody : Option α → Except ReqError α) :
    List (HttpResponse α) → Nat × Nat × Except ReqError α
  | [] => (0, 0, .error .noResponse)
  | r :: rest =>
      if r.status = 429 then
        let res := runRequest defaultRetryAfter parseBody rest
        (res.1 + 1, r.retryAfter.getD defaultRetryAfter + res.2.1, res.2.2)
      else
        match raise_for_status r.status with
        | .error e => (1, 0, .error e)
        | .ok _ => (1, 0, parseBody r.body)

/-- scripts/hubspot.py, HubSpotClient._request: Retry-After default 10;
`response.json() if response.text else {}`, so an empty body yields the
empty record `emptyVal`. -/
def HubSpotClient.request {α : Type} (emptyVal : α)
    (responses : List (HttpResponse α)) : Nat × Nat × Except ReqError α :=
  runRequest 10 (fun b => .ok (b.getD emptyVal)) responses

/-- scripts/sync_posthog.py, make_request: Retry-After default 60;
`response.json()` unconditionally, so an empty body raises JSONDecodeError. -/
def Posthog.make_request {α : Type}
    (responses : List (HttpResponse α)) : Nat × Nat × Except ReqError α :=
  runRequest 60
    (fun b => match b with
      | none => .error .jsonDecodeError
      | some p => .ok p)
    responses

/-
Cursor pagination. The mock listing endpoint is a list of page
responses; the loop issues one request per consumed response, passing
the previous response's `after` cursor, and stops when `after` is absent.
-/

/-- One page response: `result.get("results", [])` and
`result.get("paging", {}).get("next", {}).get("after")`. -/
structure PageResponse where
  results : List Row
  after : Option String
  deriving DecidableEq, Repr

/-- scripts/hubspot.py, HubSpotClient.get_all_contacts (and the
identically-shaped get_all_companies / get_all_deals): accumulate
`results` pages, follow the `after` cursor, stop when it is absent.
Returns (objects in emission order, requests issued). -/
def get_all_contacts : List PageResponse → List Row × Nat
  | [] => ([], 0)
  | p :: rest =>
      match p.after with
      | none => (p.results, 1)
      | some _ =>
          let res := get_all_contacts rest
          (p.results ++ res.1, res.2 + 1)

/-- A mock stable listing of the given pages: every page but the last
advertises a next cursor, the last does not. -/
def mkListing : List (List Row) → List PageResponse
  | [] => []
  | [p] => [⟨p, none⟩]
  | p :: rest => ⟨p, some "cursor"⟩ :: mkListing rest

/-- One response of the analytics persons endpoint: `data.get("results", [])`
and `data.get("next")` (a next-page URL). -/
structure PersonsResponse where
  results : List Row
  next : Option String
  deriving DecidableEq, Repr

/-- Loop body of scripts/sync_posthog.py, fetch_persons: extend the
accumulator with the page, stop when the count reaches `limit` or the
response has no `next` URL. Returns (accumulated rows, requests issued). -/
def fetch_persons_go (limit : Nat) (acc : List Row) :
    List PersonsResponse → List Row × Nat
  | [] => (acc, 0)
  | p :: rest =>
      let acc2 := acc ++ p.results
      if limit ≤ acc2.length ∨ p.next = none then (acc2, 1)
      else
        let res := fetch_persons_go limit acc2 rest
        (res.1, res.2 + 1)

/-- scripts/sync_posthog.py, fetch_persons: run the loop from an empty
accumulator, then return `all_persons[:limit]`. -/
def fetch_persons (limit : Nat) (responses : List PersonsResponse) :
    List Row × Nat :=
  let res := fetch_persons_go limit [] responses
  (res.1.take limit, res.2)

/-- A mock stable persons listing: every page but the last carries a
next-page URL, the last does not. -/
def mkPersonsListing : List (List Row) → List PersonsResponse
  | [] => []
  | [p] => [⟨p, none⟩]
  | p :: rest => ⟨p, some "next-url"⟩ :: mkPersonsListing rest

/-
Async query runner (scripts/sync_athena.py). `get_query_execution`
responses are modelled as the finite list of execution snapshots the
service would return to the poll loop, in order.
-/

/-- `QueryExecution.Status.State` values. -/
inductive QueryState where
  | submitted | queued | running | succeeded | failed | cancelled
  deriving DecidableEq, Repr

/-- The states on which `wait_for_query` stops polling. -/
def isTerminalState : QueryState → Bool
  | .succeeded => true
  | .failed => true
  | .cancelled => true
  | _ => false

/-- One `get_query_execution` response: the state,
`ResultConfiguration.OutputLocation`, and `Status.StateChangeReason`
(absent for some failures, hence optional). -/
structure QueryExecution where
  state : QueryState
  outputLocation : String
  stateChangeReason : Option String
  deriving DecidableEq, Repr

/-- scripts/sync_athena.py, wait_for_query: poll (one request per
snapshot consumed) until the state is terminal; return (number of polls,
the terminal execution record). `none` models the infinite loop that the
real code enters when no snapshot is ever terminal. -/
def wait_for_query : List QueryExecution → Option (Nat × QueryExecution)
  | [] => none
  | e :: rest =>
      if isTerminalState e.state then some (1, e)
      else (wait_for_query rest).map (fun p => (p.1 + 1, p.2))

/-- The per-query branch of scripts/sync_athena.py, main: on SUCCEEDED,
download the object at the execution's OutputLocation to `name.csv` and
record the csv for loading; otherwise report
`result["Status"].get("StateChangeReason", "Unknown error")`.
Returns (S3 downloads issued, csv_files entry, recorded failure reason). -/
def run_single_query (name : String) (polls : List QueryExecution) :
    List String × Option (String × String) × Option String :=
  match wait_for_query polls with
  | none => ([], none, none)
  | some pr =>
      if pr.2.state = .succeeded then
        ([pr.2.outputLocation], some (name, name ++ ".csv"), none)
      else
        ([], none, some (pr.2.stateChangeReason.getD "Unknown error"))

/-- What happens to one query of a batch: either its submit/poll/download
sequence raises a request error, or it is polled to the given snapshots. -/
inductive QueryAttempt where
  | run (polls : List QueryExecution)
  | raises (msg : String)
  deriving DecidableEq, Repr

/-- The batch loop of scripts/sync_athena.py, main: each query is wrapped
in try/except, so an exception or a non-SUCCEEDED terminal state is
recorded and the loop continues with the remaining queries. Returns
(csv_files in batch order, recorded failures in batch order). -/
def process_batch : List (String × QueryAttempt) →
    List (String × String) × List (String × String)
  | [] => ([], [])
  | (name, att) :: rest =>
      let res := process_batch rest
      match att with
      | .raises msg => (res.1, (name, msg) :: res.2)
      | .run polls =>
          match wait_for_query polls with
          | none => (res.1, res.2)
          | some pr =>
              if pr.2.state = .succeeded then
                ((name, name ++ ".csv") :: res.1, res.2)
              else
                (res.1, (name, pr.2.stateChangeReason.getD "Unknown error") :: res.2)

/-
Claims. Each claim of the specification is settled by one theorem below;
`getEntry_delEntry_self` and the listing lemmas are shared helpers.
-/

theorem getEntry_delEntry_self {α : Type} (d : List (String × α)) (k : String) :
    getEntry (delEntry d k) k = none := by
  induction d with
  | nil => rfl
  | cons hd tl ih =>
    obtain ⟨k1, v1⟩ := hd
    by_cases h : k1 = k
    · simp [delEntry, h, ih]
    · simp [delEntry, getEntry, h, ih]

/-- Claim C1: flattening a remote object (with its id present, see C9)
yields a single-level row whose keys are exactly the union of the
reserved metadata keys id, created_at, updated_at, archived and the
property-bag keys, and on any key collision the property-bag value wins,
because the flattener writes the metadata dict first and then overlays
the entire property bag with `dict.update`. -/
theorem C1_flatten_union_property_wins (obj : RemoteObject) (idv : JVal)
    (hid : obj.id = some idv)
    (hnd : (keysOf (obj.properties.getD [])).Nodup) :
    ∃ row, flatten_hubspot_object obj = some row ∧
      (∀ k, k ∈ keysOf row ↔
        ((k = "id" ∨ k = "created_at" ∨ k = "updated_at" ∨ k = "archived") ∨
          k ∈ keysOf (obj.properties.getD []))) ∧
      (∀ k v, getEntry (obj.properties.getD []) k = some v →
        getEntry row k = some v) := by
  refine ⟨dictUpdate
      [("id", idv),
       ("created_at", obj.createdAt.getD JVal.null),
       ("updated_at", obj.updatedAt.getD JVal.null),
       ("archived", obj.archived.getD (JVal.b false))]
      (obj.properties.getD []), ?_, ?_, ?_⟩
  · simp [flatten_hubspot_object, hid]
  · intro k
    rw [mem_keysOf_dictUpdate]
    simp [keysOf]
  · intro k v hv
    exact getEntry_dictUpdate_of_mem _ _ _ _ hnd hv

/-- Witness for C1, at the collision input named by the claim:
flattening the object with id "1" and property bag with a colliding
id key yields a row whose id is the property-bag value. -/
theorem C1_flatten_union_property_wins_witness :
    (flatten_hubspot_object
        ⟨some (JVal.s "1"), none, none, none,
          some [("id", JVal.s "should-not-win")]⟩).bind
      (fun row => getEntry row "id") = some (JVal.s "should-not-win") := by
  obtain ⟨row, h1, _h2, h3⟩ :=
    C1_flatten_union_property_wins
      ⟨some (JVal.s "1"), none, none, none,
        some [("id", JVal.s "should-not-win")]⟩
      (JVal.s "1") rfl (by simp [keysOf])
  rw [h1, Option.some_bind]
  exact h3 "id" _ (by simp [getEntry])

/-- Claim C9: the flattener is partial in its metadata asymmetrically:
it is defined exactly when the id key is present on the input object,
while a missing createdAt or updatedAt yields a null value in the row
and a missing archived flag defaults to false (observable in the row
whenever the property bag does not shadow the reserved key). Under the
id-present precondition it is total; it is a pure function of its
argument (it is embedded as one, performing no I/O). -/
theorem C9_flatten_partiality_defaults (obj : RemoteObject) :
    ((flatten_hubspot_object obj).isSome ↔ obj.id.isSome) ∧
    (∀ row, flatten_hubspot_object obj = some row →
      (obj.createdAt = none → "created_at" ∉ keysOf (obj.properties.getD []) →
        getEntry row "created_at" = some JVal.null) ∧
      (obj.updatedAt = none → "updated_at" ∉ keysOf (obj.properties.getD []) →
        getEntry row "updated_at" = some JVal.null) ∧
      (obj.archived = none → "archived" ∉ keysOf (obj.properties.getD []) →
        getEntry row "archived" = some (JVal.b false))) := by
  constructor
  · cases h : obj.id <;> simp [flatten_hubspot_object, h]
  · intro row hrow
    cases hid : obj.id with
    | none => simp [flatten_hubspot_object, hid] at hrow
    | some idv =>
      simp [flatten_hubspot_object, hid] at hrow
      subst hrow
      refine ⟨?_, ?_, ?_⟩
      · intro hca hk
        rw [getEntry_dictUpdate_of_not_mem _ _ _ hk]
        simp [getEntry, hca]
      · intro hua hk
        rw [getEntry_dictUpdate_of_not_mem _ _ _ hk]
        simp [getEntry, hua]
      · intro har hk
        rw [getEntry_dictUpdate_of_not_mem _ _ _ hk]
        simp [getEntry, har]

/-- Witness for C9: an object with only id present flattens to a row
with null created_at and archived false; an object missing id does not
flatten. -/
theorem C9_flatten_partiality_defaults_witness :
    (flatten_hubspot_object
      ⟨some (JVal.s "1"), none, none, none, none⟩).isSome = true ∧
    getEntry [("id", JVal.s "1"), ("created_at", JVal.null),
        ("updated_at", JVal.null), ("archived", JVal.b false)]
      "created_at" = some JVal.null ∧
    getEntry [("id", JVal.s "1"), ("created_at", JVal.null),
        ("updated_at", JVal.null), ("archived", JVal.b false)]
      "archived" = some (JVal.b false) ∧
    (flatten_hubspot_object ⟨none, none, none, none, none⟩).isSome = false := by
  have h1 := C9_flatten_partiality_defaults
    ⟨some (JVal.s "1"), none, none, none, none⟩
  have h2 := (h1.2 [("id", JVal.s "1"), ("created_at", JVal.null),
    ("updated_at", JVal.null), ("archived", JVal.b false)] rfl)
  have h0 := C9_flatten_partiality_defaults ⟨none, none, none, none, none⟩
  refine ⟨?_, h2.1 rfl (by simp [keysOf]), h2.2.2 rfl (by simp [keysOf]), ?_⟩
  · rw [h1.1]
    rfl
  · have := h0.1
    simp at this
    simp [this]

/-- Counterexample to claim C2: the analytics loader
(sync_posthog.py save_to_duckdb) has no empty-batch guard. Loading []
into a store whose table t holds the row from the claim executes the
DROP unconditionally and then fails to recreate the table from the
empty JSON array, so the table no longer contains its previous row —
the empty load is a drop, not a no-op. -/
theorem C2_empty_load_noop_counterexample :
    getEntry (Posthog.save_to_duckdb
        ⟨[], [("t", [[("id", JVal.s "1")]])]⟩ [] "t").1.tables "t" = none ∧
    (Posthog.save_to_duckdb ⟨[], [("t", [[("id", JVal.s "1")]])]⟩ [] "t").2 =
      .error "could not infer schema from empty JSON" := by
  constructor <;> rfl

/-- Claim C2 (amended): for the CRM loader (hubspot.py save_to_duckdb),
loading with an empty row batch is a no-op: the store is returned
untouched and the call reports success, so loading a one-row batch and
then loading [] leaves the table still holding that row. The analytics
loader (sync_posthog.py save_to_duckdb) lacks this guard and instead
drops the existing table on an empty batch. -/
theorem C2_empty_load_noop_amended :
    (∀ (st : Store) (table : String),
      Hubspot.save_to_duckdb st [] table = (st, .ok ())) ∧
    getEntry (Hubspot.save_to_duckdb
        (Hubspot.save_to_duckdb ⟨[], []⟩
          [⟨some (JVal.s "1"), none, none, none, none⟩] "t").1 [] "t").1.tables
      "t" =
      some [[("id", JVal.s "1"), ("created_at", JVal.null),
             ("updated_at", JVal.null), ("archived", JVal.b false)]] := by
  exact ⟨fun st table => rfl, rfl⟩

/-- Counterexample to claim C7: the async-query loader
(sync_athena.py sync_to_duckdb) never deletes its intermediate files;
after a successful load of q.csv the file still exists on the
filesystem. -/
theorem C7_intermediate_cleanup_counterexample :
    (Athena.sync_to_duckdb ⟨[("q.csv", [[("a", JVal.n 1)]])], []⟩
        [("q", "q.csv")]).2 = .ok () ∧
    getEntry (Athena.sync_to_duckdb ⟨[("q.csv", [[("a", JVal.n 1)]])], []⟩
        [("q", "q.csv")]).1.files "q.csv" = some [[("a", JVal.n 1)]] := by
  constructor <;> rfl

/-- Claim C7 (amended): the two JSON-based loaders (hubspot.py and
sync_posthog.py save_to_duckdb) delete the intermediate serialized file
after a successful load of a non-empty batch: when the call returns
success, the transient table.json file no longer exists in the store.
The async-query CSV loader (sync_athena.py) leaves its files in place. -/
theorem C7_intermediate_cleanup_amended :
    (∀ (st : Store) (data : List RemoteObject) (table : String),
      data ≠ [] → (Hubspot.save_to_duckdb st data table).2 = .ok () →
      getEntry (Hubspot.save_to_duckdb st data table).1.files
        (table ++ ".json") = none) ∧
    (∀ (st : Store) (data : List Row) (table : String),
      data ≠ [] → (Posthog.save_to_duckdb st data table).2 = .ok () →
      getEntry (Posthog.save_to_duckdb st data table).1.files
        (table ++ ".json") = none) := by
  constructor
  · intro st data table hne hok
    match data, hne with
    | d :: ds, _ =>
      cases hd : flatten_hubspot_object d with
      | none =>
        simp [Hubspot.save_to_duckdb, flattenAll, hd] at hok
      | some r =>
        cases hds : flattenAll ds with
        | none =>
          simp [Hubspot.save_to_duckdb, flattenAll, hd, hds] at hok
        | some rs =>
          simp only [Hubspot.save_to_duckdb, flattenAll, hd, hds,
            List.isEmpty_cons, Bool.false_eq_true, if_false,
            Option.map_some]
          simp only [read_json_auto, dropTable, writeFile,
            getEntry_setEntry_self]
          exact getEntry_delEntry_self _ _
  · intro st data table hne hok
    match data, hne with
    | d :: ds, _ =>
      simp only [Posthog.save_to_duckdb, read_json_auto, dropTable,
        writeFile, getEntry_setEntry_self]
      exact getEntry_delEntry_self _ _

/-- Witness for C7 (amended): concrete non-empty loads through both
JSON loaders leave no table.json behind. -/
theorem C7_intermediate_cleanup_amended_witness :
    getEntry (Hubspot.save_to_duckdb ⟨[], []⟩
        [⟨some (JVal.s "1"), none, none, none, none⟩] "t").1.files
      "t.json" = none ∧
    getEntry (Posthog.save_to_duckdb ⟨[], []⟩
        [[("id", JVal.s "1")]] "t").1.files "t.json" = none := by
  constructor
  · exact C7_intermediate_cleanup_amended.1 ⟨[], []⟩
      [⟨some (JVal.s "1"), none, none, none, none⟩] "t" (by simp) rfl
  · exact C7_intermediate_cleanup_amended.2 ⟨[], []⟩
      [[("id", JVal.s "1")]] "t" (by simp) rfl

/-- Claim C3: on HTTP 429 both clients read the Retry-After duration
(default 10 seconds for the CRM client, 60 for the analytics client when
the header is absent), sleep for it, and re-issue the identical request;
the 429 never reaches the caller — the request count, remaining sleep
and final outcome are exactly those of the retried request. In the
scenario from the claim (429 with Retry-After 3, then 200 with a
payload), exactly 2 requests are issued, exactly 3 seconds are slept,
and the parsed payload is returned. -/
theorem C3_rate_limit_retry :
    (∀ (α : Type) (e : α) (r : HttpResponse α) (rest : List (HttpResponse α)),
      r.status = 429 →
      HubSpotClient.request e (r :: rest) =
        ((HubSpotClient.request e rest).1 + 1,
         r.retryAfter.getD 10 + (HubSpotClient.request e rest).2.1,
         (HubSpotClient.request e rest).2.2) ∧
      Posthog.make_request (r :: rest) =
        ((Posthog.make_request rest).1 + 1,
         r.retryAfter.getD 60 + (Posthog.make_request rest).2.1,
         (Posthog.make_request rest).2.2)) ∧
    (∀ p : Row,
      HubSpotClient.request ([] : Row)
          [⟨429, some 3, none⟩, ⟨200, none, some p⟩] = (2, 3, .ok p) ∧
      Posthog.make_request [⟨429, some 3, none⟩, ⟨200, none, some p⟩] =
        (2, 3, .ok p)) := by
  constructor
  · intro α e r rest h429
    constructor
    · simp [HubSpotClient.request, runRequest, h429]
    · simp [Posthog.make_request, runRequest, h429]
  · intro p
    exact ⟨rfl, rfl⟩

/-- Witness for C3: a single 429 without a Retry-After header costs the
component default (10 seconds for the CRM client, 60 for the analytics
client) and hands the outcome over to the retried request. -/
theorem C3_rate_limit_retry_witness :
    HubSpotClient.request ([] : Row) [⟨429, none, none⟩] =
      ((HubSpotClient.request ([] : Row) []).1 + 1,
        10 + (HubSpotClient.request ([] : Row) []).2.1,
        (HubSpotClient.request ([] : Row) []).2.2) ∧
    Posthog.make_request ([⟨429, none, none⟩] : List (HttpResponse Row)) =
      ((Posthog.make_request ([] : List (HttpResponse Row))).1 + 1,
        60 + (Posthog.make_request ([] : List (HttpResponse Row))).2.1,
        (Posthog.make_request ([] : List (HttpResponse Row))).2.2) := by
  have h := C3_rate_limit_retry.1 Row [] ⟨429, none, none⟩ [] rfl
  exact ⟨h.1, h.2⟩

/-- Counterexample to claim C8: (a) on a 2xx response with an empty body
the analytics client (sync_posthog.py make_request) does not return an
empty record — it calls `response.json()` unconditionally and raises a
JSON decode error; (b) a non-2xx status below 400 (here 304) is not
surfaced as an error by either client: `raise_for_status` only raises
for 400..599, and the CRM client returns the empty record instead. -/
theorem C8_non2xx_empty_body_counterexample :
    (Posthog.make_request ([⟨200, none, none⟩] : List (HttpResponse Row))).2.2 =
      .error .jsonDecodeError ∧
    (HubSpotClient.request ([] : Row) [⟨304, none, none⟩]).2.2 = .ok [] := by
  constructor <;> rfl

/-- Claim C8 (amended): the CRM client returns an empty record on a
response with empty body whenever the status is not an error status
(anything outside 400..599, which includes all 2xx); the analytics
client instead fails with a JSON decode error on an empty body. Both
clients fail immediately — exactly one request, no retry, no sleep —
with an error carrying the status, precisely on statuses in 400..599
other than 429. -/
theorem C8_non2xx_empty_body_amended :
    (∀ (α : Type) (e : α) (r : HttpResponse α) (rest : List (HttpResponse α)),
      400 ≤ r.status → r.status < 600 → r.status ≠ 429 →
      HubSpotClient.request e (r :: rest) = (1, 0, .error (.httpError r.status)) ∧
      Posthog.make_request (r :: rest) = (1, 0, .error (.httpError r.status))) ∧
    (∀ (α : Type) (e : α) (r : HttpResponse α) (rest : List (HttpResponse α)),
      ¬(400 ≤ r.status ∧ r.status < 600) → r.status ≠ 429 → r.body = none →
      HubSpotClient.request e (r :: rest) = (1, 0, .ok e) ∧
      Posthog.make_request (r :: rest) = (1, 0, .error .jsonDecodeError)) := by
  constructor
  · intro α e r rest h1 h2 h429
    constructor
    · simp [HubSpotClient.request, runRequest, raise_for_status, h429, h1, h2]
    · simp [Posthog.make_request, runRequest, raise_for_status, h429, h1, h2]
  · intro α e r rest hno h429 hbody
    constructor
    · simp [HubSpotClient.request, runRequest, raise_for_status, h429, hno, hbody]
    · simp [Posthog.make_request, runRequest, raise_for_status, h429, hno, hbody]

/-- Witness for C8 (amended): a 500 fails both clients with the status
and a single request; a 204 with empty body yields the empty record for
the CRM client and a JSON decode error for the analytics client. -/
theorem C8_non2xx_empty_body_amended_witness :
    (HubSpotClient.request ([] : Row) [⟨500, none, none⟩] =
        (1, 0, .error (.httpError 500)) ∧
      Posthog.make_request ([⟨500, none, none⟩] : List (HttpResponse Row)) =
        (1, 0, .error (.httpError 500))) ∧
    (HubSpotClient.request ([] : Row) [⟨204, none, none⟩] = (1, 0, .ok []) ∧
      Posthog.make_request ([⟨204, none, none⟩] : List (HttpResponse Row)) =
        (1, 0, .error .jsonDecodeError)) := by
  constructor
  · exact C8_non2xx_empty_body_amended.1 Row [] ⟨500, none, none⟩ []
      (by decide) (by decide) (by decide)
  · exact C8_non2xx_empty_body_amended.2 Row [] ⟨204, none, none⟩ []
      (by decide) (by decide) rfl

theorem get_all_contacts_mkListing (pages : List (List Row)) (hne : pages ≠ []) :
    get_all_contacts (mkListing pages) = (pages.flatten, pages.length) := by
  induction pages with
  | nil => exact absurd rfl hne
  | cons p rest ih =>
    cases rest with
    | nil => simp [mkListing, get_all_contacts]
    | cons q rest2 =>
      have ih2 := ih (by simp)
      simp [mkListing, get_all_contacts, ih2]

theorem flatten_length_const (pages : List (List Row)) (L : Nat)
    (hL : ∀ p ∈ pages, p.length = L) :
    pages.flatten.length = pages.length * L := by
  induction pages with
  | nil => simp
  | cons p rest ih =>
    have hp := hL p (List.mem_cons_self _ _)
    have ih2 := ih (fun r hr => hL r (List.mem_cons_of_mem _ hr))
    simp [hp, ih2]
    ring

theorem fetch_persons_go_mkPersonsListing (limit L : Nat) :
    ∀ pages : List (List Row), pages ≠ [] → (∀ p ∈ pages, p.length = L) →
      1 ≤ L → ∀ acc : List Row, acc.length + pages.length * L ≤ limit →
      fetch_persons_go limit acc (mkPersonsListing pages) =
        (acc ++ pages.flatten, pages.length) := by
  intro pages
  induction pages with
  | nil => intro hne; exact absurd rfl hne
  | cons p rest ih =>
    intro _ hL hL1 acc hcap
    cases rest with
    | nil => simp [mkPersonsListing, fetch_persons_go]
    | cons q rest2 =>
      have hp := hL p (List.mem_cons_self _ _)
      have h1 : L ≤ (q :: rest2).length * L := by
        have h2 : 1 * L ≤ (q :: rest2).length * L :=
          Nat.mul_le_mul_right L (Nat.succ_le_succ (Nat.zero_le _))
        simpa using h2
      have hexp : ((q :: rest2).length + 1) * L = (q :: rest2).length * L + L := by
        ring
      have hcap2 : acc.length + ((q :: rest2).length + 1) * L ≤ limit := hcap
      rw [hexp] at hcap2
      have hrec := ih (by simp) (fun r hr => hL r (List.mem_cons_of_mem _ hr)) hL1
        (acc ++ p)
        (by rw [List.length_append, hp]; omega)
      simp only [mkPersonsListing, fetch_persons_go]
      rw [if_neg (by simp; omega)]
      simp [hrec]

/-- Counterexample to claim C4: the analytics persons fetcher
(sync_posthog.py fetch_persons) is one of the paginated fetchers the
claim ranges over, yet with limit 1 over a stable 2-page listing of
page-size 1 it stops after a single request and returns a single object,
although the first response still advertises a next cursor — not the
claimed N×L = 2 objects in N = 2 requests, and not termination exactly
on cursor absence. -/
theorem C4_pagination_counterexample :
    fetch_persons 1 [⟨[[("id", JVal.s "1")]], some "next-url"⟩,
                     ⟨[[("id", JVal.s "2")]], none⟩] =
      ([[("id", JVal.s "1")]], 1) ∧
    fetch_persons 1 [⟨[[("id", JVal.s "1")]], some "next-url"⟩,
                     ⟨[[("id", JVal.s "2")]], none⟩] ≠
      ([[("id", JVal.s "1")], [("id", JVal.s "2")]], 2) := by
  constructor
  · rfl
  · decide

/-- Claim C4 (amended): over a stable mock listing of N pages of size L
(every page but the last advertising a next cursor), the CRM cursor
paginator (hubspot.py get_all_contacts and its clones) passes the cursor
from each response to the next request, terminates exactly on cursor
absence, and returns the pages' objects exactly once in page-emission
order — N×L objects in exactly N requests, with id uniqueness inherited
from the stable listing. The analytics persons fetcher
(sync_posthog.py fetch_persons) satisfies the same guarantee provided
its caller-supplied limit is at least the listing's total size N×L
(with L at least 1); below that it truncates (see C10). -/
theorem C4_pagination_amended (pages : List (List Row)) (L : Nat)
    (hne : pages ≠ []) (hL : ∀ p ∈ pages, p.length = L) :
    (get_all_contacts (mkListing pages) = (pages.flatten, pages.length) ∧
      pages.flatten.length = pages.length * L ∧
      ((pages.flatten.map (fun r => getEntry r "id")).Nodup →
        (((get_all_contacts (mkListing pages)).1.map
          (fun r => getEntry r "id")).Nodup))) ∧
    (∀ limit : Nat, 1 ≤ L → pages.length * L ≤ limit →
      fetch_persons limit (mkPersonsListing pages) =
        (pages.flatten, pages.length)) := by
  have hg := get_all_contacts_mkListing pages hne
  have hlen := flatten_length_const pages L hL
  refine ⟨⟨hg, hlen, ?_⟩, ?_⟩
  · intro hids
    rw [hg]
    exact hids
  · intro limit hL1 hcap
    have hgo := fetch_persons_go_mkPersonsListing limit L pages hne hL hL1 []
      (by simpa using hcap)
    unfold fetch_persons
    rw [hgo]
    simp only [List.nil_append]
    rw [List.take_of_length_le (by rw [hlen]; exact hcap)]

/-- Witness for C4 (amended): a 2-page listing of one object per page is
returned in full, in order, in 2 requests, by both paginators (limit 2
for the persons fetcher). -/
theorem C4_pagination_amended_witness :
    get_all_contacts (mkListing [[[("id", JVal.s "1")]], [[("id", JVal.s "2")]]]) =
      ([[("id", JVal.s "1")], [("id", JVal.s "2")]], 2) ∧
    fetch_persons 2 (mkPersonsListing
        [[[("id", JVal.s "1")]], [[("id", JVal.s "2")]]]) =
      ([[("id", JVal.s "1")], [("id", JVal.s "2")]], 2) := by
  have h := C4_pagination_amended [[[("id", JVal.s "1")]], [[("id", JVal.s "2")]]] 1
    (by simp) (by simp)
  exact ⟨h.1.1, h.2 2 (by decide) (by decide)⟩

/-- Claim C10: the analytics persons fetcher caps its result at the
caller-supplied limit: the returned list never exceeds limit entries
(the accumulated list is truncated to the first limit), and the loop
stops issuing requests as soon as the accumulated count reaches limit,
even when the response still advertises a next-page cursor. -/
theorem C10_fetch_persons_limit_cap :
    (∀ (limit : Nat) (responses : List PersonsResponse),
      (fetch_persons limit responses).1.length ≤ limit) ∧
    (∀ (limit : Nat) (acc : List Row) (p : PersonsResponse)
        (rest : List PersonsResponse),
      limit ≤ acc.length + p.results.length →
      fetch_persons_go limit acc (p :: rest) = (acc ++ p.results, 1)) ∧
    (∀ (limit : Nat) (p : PersonsResponse) (rest : List PersonsResponse),
      limit ≤ p.results.length →
      fetch_persons limit (p :: rest) = (p.results.take limit, 1)) := by
  refine ⟨?_, ?_, ?_⟩
  · intro limit responses
    unfold fetch_persons
    simp [List.length_take]
  · intro limit acc p rest hge
    unfold fetch_persons_go
    rw [if_pos (Or.inl (by rw [List.length_append]; exact hge))]
  · intro limit p rest hge
    unfold fetch_persons fetch_persons_go
    rw [if_pos (Or.inl (by simpa using hge))]
    simp

/-- Witness for C10: with limit 2 and a first page of 3 persons that
still advertises a next cursor, a single request is made and only the
first 2 persons are returned. -/
theorem C10_fetch_persons_limit_cap_witness :
    fetch_persons 2 [⟨[[("id", JVal.s "1")], [("id", JVal.s "2")],
        [("id", JVal.s "3")]], some "next-url"⟩,
      ⟨[[("id", JVal.s "4")]], none⟩] =
      ([[("id", JVal.s "1")], [("id", JVal.s "2")]], 1) ∧
    (fetch_persons 2 [⟨[[("id", JVal.s "1")], [("id", JVal.s "2")],
        [("id", JVal.s "3")]], some "next-url"⟩,
      ⟨[[("id", JVal.s "4")]], none⟩]).1.length ≤ 2 := by
  constructor
  · have h := C10_fetch_persons_limit_cap.2.2 2
      ⟨[[("id", JVal.s "1")], [("id", JVal.s "2")], [("id", JVal.s "3")]],
        some "next-url"⟩
      [⟨[[("id", JVal.s "4")]], none⟩] (by decide)
    rw [h]
    rfl
  · exact C10_fetch_persons_limit_cap.1 2 _

theorem wait_for_query_first_terminal (pre : List QueryExecution)
    (e : QueryExecution) (post : List QueryExecution)
    (hpre : ∀ q ∈ pre, isTerminalState q.state = false)
    (he : isTerminalState e.state = true) :
    wait_for_query (pre ++ e :: post) = some (pre.length + 1, e) := by
  induction pre with
  | nil => simp [wait_for_query, he]
  | cons q rest ih =>
    have hq := hpre q (List.mem_cons_self _ _)
    have ih2 := ih (fun r hr => hpre r (List.mem_cons_of_mem _ hr))
    simp [wait_for_query, hq, ih2]

/-- Claim C5: the poll loop (sync_athena.py wait_for_query) issues one
get_query_execution call per 2-second interval until the service first
reports a terminal state, and the per-query runner downloads a result
if and only if that terminal state is SUCCEEDED: on SUCCEEDED it issues
exactly one download, targeting the OutputLocation read from the
execution's metadata; on FAILED or CANCELLED it downloads nothing and
reports the failure reason from the execution's status (defaulting to
"Unknown error" when the service supplies none). -/
theorem C5_async_poll_then_download (name : String) (pre : List QueryExecution)
    (e : QueryExecution) (post : List QueryExecution)
    (hpre : ∀ q ∈ pre, isTerminalState q.state = false)
    (he : isTerminalState e.state = true) :
    wait_for_query (pre ++ e :: post) = some (pre.length + 1, e) ∧
    (e.state = .succeeded →
      run_single_query name (pre ++ e :: post) =
        ([e.outputLocation], some (name, name ++ ".csv"), none)) ∧
    (e.state = .failed ∨ e.state = .cancelled →
      run_single_query name (pre ++ e :: post) =
        ([], none, some (e.stateChangeReason.getD "Unknown error"))) := by
  have hw := wait_for_query_first_terminal pre e post hpre he
  refine ⟨hw, ?_, ?_⟩
  · intro hs
    simp [run_single_query, hw, hs]
  · intro hs
    have hne : ¬ e.state = QueryState.succeeded := by
      rcases hs with h | h <;> simp [h]
    simp [run_single_query, hw, hne]

/-- Witness for C5: a SUBMITTED, RUNNING, SUCCEEDED poll sequence makes
3 polls and one download of the reported result location; a RUNNING,
CANCELLED sequence downloads nothing and reports the recorded reason. -/
theorem C5_async_poll_then_download_witness :
    run_single_query "q"
        [⟨QueryState.submitted, "s3://b/k.csv", none⟩,
         ⟨QueryState.running, "s3://b/k.csv", none⟩,
         ⟨QueryState.succeeded, "s3://b/k.csv", none⟩] =
      (["s3://b/k.csv"], some ("q", "q.csv"), none) ∧
    wait_for_query
        [⟨QueryState.submitted, "s3://b/k.csv", none⟩,
         ⟨QueryState.running, "s3://b/k.csv", none⟩,
         ⟨QueryState.succeeded, "s3://b/k.csv", none⟩] =
      some (3, ⟨QueryState.succeeded, "s3://b/k.csv", none⟩) ∧
    run_single_query "q"
        [⟨QueryState.running, "s3://x", none⟩,
         ⟨QueryState.cancelled, "s3://x", some "Query cancelled"⟩] =
      ([], none, some "Query cancelled") := by
  have h1 := C5_async_poll_then_download "q"
    [⟨QueryState.submitted, "s3://b/k.csv", none⟩,
     ⟨QueryState.running, "s3://b/k.csv", none⟩]
    ⟨QueryState.succeeded, "s3://b/k.csv", none⟩ []
    (by intro q hq; fin_cases hq <;> rfl) rfl
  have h2 := C5_async_poll_then_download "q"
    [⟨QueryState.running, "s3://x", none⟩]
    ⟨QueryState.cancelled, "s3://x", some "Query cancelled"⟩ []
    (by intro q hq; fin_cases hq; rfl) rfl
  exact ⟨h1.2.1 rfl, h1.1, h2.2.2 (Or.inr rfl)⟩

/-- Claim C6: each query's failure is isolated in a multi-query batch.
The batch processor distributes over concatenation, so earlier queries
never affect later ones; a query with a CANCELLED terminal state
contributes no csv file and a recorded failure reason; and a query whose
csv file exists is loaded into its table by the loader regardless of
what else happened in the batch. -/
theorem C6_batch_failure_isolation :
    (∀ xs ys : List (String × QueryAttempt),
      process_batch (xs ++ ys) =
        ((process_batch xs).1 ++ (process_batch ys).1,
         (process_batch xs).2 ++ (process_batch ys).2)) ∧
    (∀ (name : String) (polls : List QueryExecution) (n : Nat)
        (e : QueryExecution),
      wait_for_query polls = some (n, e) → e.state = .cancelled →
      process_batch [(name, .run polls)] =
        ([], [(name, e.stateChangeReason.getD "Unknown error")])) ∧
    (∀ (st : Store) (table path : String) (rows : List Row),
      getEntry st.files path = some rows →
      getEntry (Athena.sync_to_duckdb st [(table, path)]).1.tables table =
        some rows ∧
      (Athena.sync_to_duckdb st [(table, path)]).2 = .ok ()) := by
  refine ⟨?_, ?_, ?_⟩
  · intro xs ys
    induction xs with
    | nil => simp [process_batch]
    | cons hd rest ih =>
      obtain ⟨name, att⟩ := hd
      cases att with
      | raises msg => simp [process_batch, ih]
      | run polls =>
        cases hw : wait_for_query polls with
        | none => simp [process_batch, ih, hw]
        | some pr =>
          by_cases hs : pr.2.state = QueryState.succeeded
          · simp [process_batch, ih, hw, hs]
          · simp [process_batch, ih, hw, hs]
  · intro name polls n e hw hc
    have hne : ¬ e.state = QueryState.succeeded := by simp [hc]
    simp [process_batch, hw, hne]
  · intro st table path rows hfile
    simp [Athena.sync_to_duckdb, read_csv_auto, dropTable, hfile,
      getEntry_setEntry_self]

/-- Witness for C6: a batch of a CANCELLED query a and an independent
SUCCEEDED query b yields csv_files containing only b, the recorded
reason for a, and b's downloaded csv is loaded into table b. -/
theorem C6_batch_failure_isolation_witness :
    process_batch
        [("a", QueryAttempt.run
            [⟨QueryState.cancelled, "s3://x", some "cancelled by user"⟩]),
         ("b", QueryAttempt.run [⟨QueryState.succeeded, "s3://y/r.csv", none⟩])] =
      ([("b", "b.csv")], [("a", "cancelled by user")]) ∧
    getEntry (Athena.sync_to_duckdb ⟨[("b.csv", [[("id", JVal.s "1")]])], []⟩
        [("b", "b.csv")]).1.tables "b" = some [[("id", JVal.s "1")]] := by
  constructor
  · have hsplit := C6_batch_failure_isolation.1
      [("a", QueryAttempt.run
          [⟨QueryState.cancelled, "s3://x", some "cancelled by user"⟩])]
      [("b", QueryAttempt.run [⟨QueryState.succeeded, "s3://y/r.csv", none⟩])]
    have ha := C6_batch_failure_isolation.2.1 "a"
      [⟨QueryState.cancelled, "s3://x", some "cancelled by user"⟩] 1
      ⟨QueryState.cancelled, "s3://x", some "cancelled by user"⟩ rfl rfl
    rw [show ([("a", QueryAttempt.run
          [⟨QueryState.cancelled, "s3://x", some "cancelled by user"⟩]),
        ("b", QueryAttempt.run
          [⟨QueryState.succeeded, "s3://y/r.csv", none⟩])] =
        [("a", QueryAttempt.run
          [⟨QueryState.cancelled, "s3://x", some "cancelled by user"⟩])] ++
        [("b", QueryAttempt.run
          [⟨QueryState.succeeded, "s3://y/r.csv", none⟩])]) from rfl,
      hsplit, ha]
    rfl
  · exact (C6_batch_failure_isolation.2.2
      ⟨[("b.csv", [[("id", JVal.s "1")]])], []⟩ "b" "b.csv"
      [[("id", JVal.s "1")]] rfl).1
